import Mathlib

/-!
Verification of the observer-driven tally logic of `src/app.py`
(time-tracker). The Python dictionaries are embedded as association lists
that keep insertion order, mutation is explicit state passing, and the
`KeyError` that `d[k] += 1` can raise is an `Except` error carrying the
dictionary state at the moment of the raise.
-/

/-- Fixed choice labels (`CHOICES` in app.py). -/
def CHOICES : List String := ["Option 1", "Option 2", "Option 3"]

/-- Color lookup table (`CHOICE_COLOR` in app.py). -/
def CHOICE_COLOR : List (String × String) :=
  [("Option 1", "#baffc9"), ("Option 2", "#bae1ff"), ("Option 3", "#ffb3ba")]

/-- Python dict read `d[k]`, as ordered association-list lookup; `none`
models a `KeyError`. -/
def dget {α : Type} : List (String × α) → String → Option α
  | [], _ => none
  | p :: rest, k => if p.1 = k then some p.2 else dget rest k

/-- Python dict write `d[k] = v` for a key already present: replaces the
value in place, keeping the dict order. -/
def dset {α : Type} : List (String × α) → String → α → List (String × α)
  | [], _, _ => []
  | p :: rest, k, v => if p.1 = k then (k, v) :: rest else p :: dset rest k v

/-- Python `d[k] += delta`: the read raises `KeyError k` when the key is
missing, otherwise the entry is updated in place. -/
def dadd (d : List (String × Int)) (k : String) (delta : Int) :
    Except String (List (String × Int)) :=
  match dget d k with
  | none => Except.error k
  | some v => Except.ok (dset d k (v + delta))

/-- Tally dictionary type of `ResponseGraph.bars`. -/
abbrev Bars := List (String × Int)

namespace ResponseGraph

/-- Bars dict built in `ResponseGraph.__init__`: one zero entry per choice. -/
def initBars : Bars := CHOICES.map (fun c => (c, 0))

/-- `ResponseGraph.update` from app.py lines 149-163: when `old_resp` is
truthy (not `None` and not the empty string) its count is decremented,
then the count of `new_resp` is incremented. A `KeyError` aborts with the
key and the bars state at the point of the raise. -/
def update (bars : Bars) (old_resp : Option String) (new_resp : String) :
    Except (String × Bars) Bars :=
  match
    (match old_resp with
     | none => Except.ok bars
     | some o =>
       if o = "" then Except.ok bars
       else
         match dadd bars o (-1) with
         | Except.error k => Except.error (k, bars)
         | Except.ok b => Except.ok b) with
  | Except.error e => Except.error e
  | Except.ok b1 =>
    match dadd b1 new_resp 1 with
    | Except.error k => Except.error (k, b1)
    | Except.ok b2 => Except.ok b2

/-- Bar heights read off by `ResponseGraph.draw`: the counts of the fixed
choices, in order. -/
def drawHeights (bars : Bars) : List (Option Int) :=
  CHOICES.map (fun c => dget bars c)

end ResponseGraph

/-- Deliver a list of `(old_resp, new_resp)` update events to the graph in
order, stopping at the first `KeyError`. -/
def runEvents (bars : Bars) :
    List (Option String × String) → Except (String × Bars) Bars
  | [] => Except.ok bars
  | e :: rest =>
    match ResponseGraph.update bars e.1 e.2 with
    | Except.error err => Except.error err
    | Except.ok b => runEvents b rest

/-- Sum of all counts in a tally dict (`sum(bars.values())`). -/
def sumBars (d : Bars) : Int := (d.map Prod.snd).sum

/-- Well-formed bars dict: exactly one entry per fixed choice, in the
order of `CHOICES`. `ResponseGraph.__init__` builds such a dict and
`update` never adds or removes keys, so every reachable bars dict has
this shape. -/
def WFBars (bars : Bars) : Prop :=
  ∃ a b c : Int, bars = [("Option 1", a), ("Option 2", b), ("Option 3", c)]

/-- Pointwise effect of one update event on the counts: the previous
choice's entry drops by one and the next choice's entry rises by one. -/
def tallyStep (bars : Bars) (prev : Option String) (nxt : String) : Bars :=
  bars.map (fun p =>
    (p.1, p.2 - (if prev = some p.1 then 1 else 0) + (if nxt = p.1 then 1 else 0)))

/-- Stored responses of the ResponseButton instances: source id ↦ the
response currently held in `self.resp`, one entry per source that has
responded. -/
abbrev Buttons := List (Nat × String)

/-- Current response of source `s`, `none` when `s` has never responded. -/
def blookup : Buttons → Nat → Option String
  | [], _ => none
  | p :: rest, s => if p.1 = s then some p.2 else blookup rest s

/-- Store response `c` for source `s`: replace in place when present,
append a fresh entry otherwise. -/
def bset : Buttons → Nat → String → Buttons
  | [], s, c => [(s, c)]
  | p :: rest, s, c => if p.1 = s then (s, c) :: rest else p :: bset rest s c

/-- Whole-app state: the buttons' stored responses and the graph's bars. -/
structure Sys where
  buttons : Buttons
  bars : Bars

/-- State after `ResponseGraph.__init__` and before any button responds. -/
def initSys : Sys := ⟨[], ResponseGraph.initBars⟩

/-- One user selection: source `s` picks choice `c`. Per
`ResponseButton.update_response`, the old response is read, the new one
stored, and the graph is notified with (old, new). -/
def sysStep (st : Sys) (s : Nat) (c : String) : Except (String × Bars) Sys :=
  match ResponseGraph.update st.bars (blookup st.buttons s) c with
  | Except.error e => Except.error e
  | Except.ok g => Except.ok ⟨bset st.buttons s c, g⟩

/-- Run a list of (source, choice) selections in order. -/
def sysRun (st : Sys) : List (Nat × String) → Except (String × Bars) Sys
  | [] => Except.ok st
  | e :: rest =>
    match sysStep st e.1 e.2 with
    | Except.error err => Except.error err
    | Except.ok st' => sysRun st' rest

/-- Reachability invariant: bars well formed, one entry per source,
stored responses drawn from the fixed choices, and the tally total equal
to the number of sources that have responded. -/
def SysInv (st : Sys) : Prop :=
  WFBars st.bars ∧ (st.buttons.map Prod.fst).Nodup ∧
    (∀ p ∈ st.buttons, p.2 ∈ CHOICES) ∧
    sumBars st.bars = (st.buttons.length : Int)

/-- Modal choice prompt `open_choice_menu` (app.py lines 16-42): the radio
variable starts at `choices[0]`; clicking a radio sets it to that choice;
Submit destroys the window and the variable's current value is returned.
`sel` is the selection the user clicked, `none` when the window is
dismissed with no click; an empty choice list fails on `choices[0]`. -/
def open_choice_menu (choices : List String) (sel : Option String) :
    Option String :=
  match choices with
  | [] => none
  | first :: _ => some (sel.getD first)

/-- Id fields visible on one ResponseButton instance. -/
structure RBIds where
  but_id : Nat
  inst_next_id : Option Nat
deriving DecidableEq

/-- Class attribute `ResponseButton._next_id` (app.py line 56); no code
ever rebinds it on the class. -/
def RB_class_next_id : Nat := 0

/-- Python attribute read `self._next_id`: the instance attribute when one
exists, otherwise the class attribute. -/
def RB_read_next_id (cls : Nat) (inst : Option Nat) : Nat := inst.getD cls

/-- app.py line 71, `self.but_id, self._next_id = self._next_id, self._next_id + 1`
on a fresh instance: both right-hand reads happen before the writes and
see no instance attribute, so they fall back to the class attribute; both
writes create instance attributes and leave the class attribute alone.
Returns the instance id fields and the class attribute afterwards. -/
def RB_init_ids (cls : Nat) : RBIds × Nat :=
  (⟨RB_read_next_id cls none, some (RB_read_next_id cls none + 1)⟩, cls)

/-- Construct `n` ResponseButtons in order, threading the class attribute. -/
def RB_construct_seq : Nat → List RBIds × Nat
  | 0 => ([], RB_class_next_id)
  | n + 1 =>
    ((RB_construct_seq n).1 ++ [(RB_init_ids (RB_construct_seq n).2).1],
      (RB_init_ids (RB_construct_seq n).2).2)

/-- Fields of one ResponseButton that `update_response` touches. -/
structure ButtonState where
  resp : Option String
  bg : Option String
deriving DecidableEq

namespace ResponseButton

/-- `update_response` (app.py lines 76-81) with `notify_subscribers`
(lines 117-130) inlined: the old response is read, the user input is
stored in `self.resp`, the background color is looked up (an input
outside the color table raises `KeyError` after `resp` was already
rewritten), then each of the `nsubs` registered subscribers is called
once, in registration order, with (old, new). The returned list records
those calls as (subscriber index, old, new). -/
def update_response (st : ButtonState) (nsubs : Nat) (userInput : String) :
    Except (String × ButtonState)
      (ButtonState × List (Nat × Option String × String)) :=
  match dget CHOICE_COLOR userInput with
  | none => Except.error (userInput, ⟨some userInput, st.bg⟩)
  | some color =>
    Except.ok (⟨some userInput, some color⟩,
      (List.range nsubs).map (fun i => (i, st.resp, userInput)))

end ResponseButton

/-- Primitive actions of one update_response call, in program order. -/
inductive Act : Type where
  | readOld : Option String → Act
  | setResp : String → Act
  | setBg : String → Act
  | notify : Nat → Option String → String → Act
  | ret : Act
deriving DecidableEq

/-- Action trace of `update_response` (app.py lines 76-81): read the old
response, write the new one into `self.resp`, look up and write the
background color (on a `KeyError` nothing further runs), then notify the
subscribers in order, then return to the caller. -/
def update_response_trace (st : ButtonState) (nsubs : Nat) (input : String) :
    List Act :=
  [Act.readOld st.resp, Act.setResp input] ++
    (match dget CHOICE_COLOR input with
     | none => []
     | some color =>
       Act.setBg color ::
         ((List.range nsubs).map (fun i => Act.notify i st.resp input) ++
           [Act.ret]))

theorem mem_CHOICES_elim (x : String) (hx : x ∈ CHOICES) :
    x = "Option 1" ∨ x = "Option 2" ∨ x = "Option 3" := by
  simpa [CHOICES] using hx

/-- On a well-formed dict, `ResponseGraph.update` with an in-set previous
(or `none`) and an in-set next succeeds and acts as `tallyStep`. -/
theorem update_wf_spec (a b c : Int) (prev : Option String) (nxt : String)
    (hp : prev = none ∨ ∃ o, o ∈ CHOICES ∧ prev = some o) (hn : nxt ∈ CHOICES) :
    ResponseGraph.update [("Option 1", a), ("Option 2", b), ("Option 3", c)] prev nxt
      = Except.ok
          (tallyStep [("Option 1", a), ("Option 2", b), ("Option 3", c)] prev nxt) := by
  rcases hp with rfl | ⟨o, ho, rfl⟩
  · rcases mem_CHOICES_elim nxt hn with rfl | rfl | rfl <;>
      simp [ResponseGraph.update, dadd, dget, dset, tallyStep]
  · rcases mem_CHOICES_elim o ho with rfl | rfl | rfl <;>
      rcases mem_CHOICES_elim nxt hn with rfl | rfl | rfl <;>
        simp [ResponseGraph.update, dadd, dget, dset, tallyStep] <;> ring_nf

theorem dget_tallyStep (bars : Bars) (prev : Option String) (nxt : String)
    (ch : String) :
    dget (tallyStep bars prev nxt) ch = (dget bars ch).map
      (fun v => v - (if prev = some ch then 1 else 0) + (if nxt = ch then 1 else 0)) := by
  induction bars with
  | nil => rfl
  | cons p rest ih =>
    by_cases h : p.1 = ch
    · subst h; simp [tallyStep, dget]
    · simp only [tallyStep, List.map_cons, dget, h, if_false]
      simpa [tallyStep] using ih

theorem tallyStep_wf (bars : Bars) (hwf : WFBars bars) (prev : Option String)
    (nxt : String) : WFBars (tallyStep bars prev nxt) := by
  obtain ⟨a, b, c, rfl⟩ := hwf
  exact ⟨_, _, _, rfl⟩

theorem sumBars_triple (a b c : Int) :
    sumBars [("Option 1", a), ("Option 2", b), ("Option 3", c)] = a + b + c := by
  simp [sumBars]; ring

theorem sum_tallyStep_none (a b c : Int) (nxt : String) (hn : nxt ∈ CHOICES) :
    sumBars (tallyStep [("Option 1", a), ("Option 2", b), ("Option 3", c)] none nxt)
      = a + b + c + 1 := by
  rcases mem_CHOICES_elim nxt hn with rfl | rfl | rfl <;>
    simp [tallyStep, sumBars] <;> ring

theorem sum_tallyStep_some (a b c : Int) (old nxt : String)
    (ho : old ∈ CHOICES) (hn : nxt ∈ CHOICES) :
    sumBars
        (tallyStep [("Option 1", a), ("Option 2", b), ("Option 3", c)] (some old) nxt)
      = a + b + c := by
  rcases mem_CHOICES_elim old ho with rfl | rfl | rfl <;>
    rcases mem_CHOICES_elim nxt hn with rfl | rfl | rfl <;>
      simp [tallyStep, sumBars] <;> ring

theorem blookup_eq_none (l : Buttons) (s : Nat) :
    blookup l s = none ↔ s ∉ l.map Prod.fst := by
  induction l with
  | nil => simp [blookup]
  | cons p rest ih =>
    simp only [blookup, List.map_cons, List.mem_cons]
    by_cases h : p.1 = s
    · simp [h]
    · simp only [h, if_false, ih]
      constructor
      · intro hn hmem
        rcases hmem with hmem | hmem
        · exact h hmem.symm
        · exact hn hmem
      · intro hn hmem
        exact hn (Or.inr hmem)

theorem bset_of_lookup_none (l : Buttons) (s : Nat) (c : String)
    (h : blookup l s = none) : bset l s c = l ++ [(s, c)] := by
  induction l with
  | nil => rfl
  | cons p rest ih =>
    by_cases hp : p.1 = s
    · simp [blookup, hp] at h
    · simp only [blookup, hp, if_false] at h
      simp [bset, hp, ih h]

theorem map_fst_bset_of_lookup_some (l : Buttons) (s : Nat) (o c : String)
    (h : blookup l s = some o) : (bset l s c).map Prod.fst = l.map Prod.fst := by
  induction l with
  | nil => simp [blookup] at h
  | cons p rest ih =>
    by_cases hp : p.1 = s
    · simp [bset, hp]
    · simp only [blookup, hp, if_false] at h
      simp [bset, hp, ih h]

theorem blookup_mem (l : Buttons) (s : Nat) (o : String)
    (h : blookup l s = some o) : (s, o) ∈ l := by
  induction l with
  | nil => simp [blookup] at h
  | cons p rest ih =>
    by_cases hp : p.1 = s
    · rw [blookup, if_pos hp] at h
      injection h with h
      obtain ⟨p1, p2⟩ := p
      dsimp only at hp h
      subst hp
      subst h
      exact List.mem_cons_self _ _
    · rw [blookup, if_neg hp] at h
      exact List.mem_cons_of_mem p (ih h)

theorem mem_bset (l : Buttons) (s : Nat) (c : String) (p : Nat × String)
    (h : p ∈ bset l s c) : p = (s, c) ∨ p ∈ l := by
  induction l with
  | nil => simpa [bset] using h
  | cons q rest ih =>
    by_cases hq : q.1 = s
    · rw [bset, if_pos hq] at h
      rcases List.mem_cons.mp h with h | h
      · exact Or.inl h
      · exact Or.inr (List.mem_cons_of_mem q h)
    · rw [bset, if_neg hq] at h
      rcases List.mem_cons.mp h with h | h
      · exact Or.inr (by simp [h])
      · rcases ih h with h2 | h2
        · exact Or.inl h2
        · exact Or.inr (List.mem_cons_of_mem q h2)

theorem initSys_inv : SysInv initSys := by
  refine ⟨⟨0, 0, 0, rfl⟩, by simp [initSys], by simp [initSys], by decide⟩

theorem sysStep_inv (st : Sys) (h : SysInv st) (s : Nat) (c : String)
    (hc : c ∈ CHOICES) :
    ∃ st', sysStep st s c = Except.ok st' ∧ SysInv st' := by
  obtain ⟨hwf, hnd, hvals, hsum⟩ := h
  obtain ⟨a, b, d, hbars⟩ := hwf
  rcases hprev : blookup st.buttons s with _ | o
  · have hupd := update_wf_spec a b d none c (Or.inl rfl) hc
    have hset := bset_of_lookup_none st.buttons s c hprev
    refine ⟨⟨bset st.buttons s c,
        tallyStep [("Option 1", a), ("Option 2", b), ("Option 3", d)] none c⟩,
      by simp only [sysStep, hprev, hbars, hupd], ?_, ?_, ?_, ?_⟩
    · exact tallyStep_wf _ ⟨a, b, d, rfl⟩ none c
    · rw [hset, List.map_append]
      simp only [List.map_cons, List.map_nil]
      rw [List.nodup_append]
      exact ⟨hnd, List.nodup_singleton s,
        by simpa using (blookup_eq_none st.buttons s).mp hprev⟩
    · intro p hp
      rw [hset] at hp
      rcases List.mem_append.mp hp with hp | hp
      · exact hvals p hp
      · simp only [List.mem_singleton] at hp
        rw [hp]
        exact hc
    · rw [sum_tallyStep_none a b d c hc, hset, List.length_append]
      have : sumBars st.bars = a + b + d := by rw [hbars, sumBars_triple]
      rw [this] at hsum
      simp only [List.length_singleton]
      push_cast
      omega
  · have ho : o ∈ CHOICES := hvals (s, o) (blookup_mem st.buttons s o hprev)
    have hupd := update_wf_spec a b d (some o) c (Or.inr ⟨o, ho, rfl⟩) hc
    refine ⟨⟨bset st.buttons s c,
        tallyStep [("Option 1", a), ("Option 2", b), ("Option 3", d)] (some o) c⟩,
      by simp only [sysStep, hprev, hbars, hupd], ?_, ?_, ?_, ?_⟩
    · exact tallyStep_wf _ ⟨a, b, d, rfl⟩ (some o) c
    · rw [map_fst_bset_of_lookup_some st.buttons s o c hprev]
      exact hnd
    · intro p hp
      rcases mem_bset st.buttons s c p hp with hp2 | hp2
      · rw [hp2]
        exact hc
      · exact hvals p hp2
    · rw [sum_tallyStep_some a b d o c ho hc]
      have hlen : (bset st.buttons s c).length = st.buttons.length := by
        have := map_fst_bset_of_lookup_some st.buttons s o c hprev
        have h2 := congrArg List.length this
        simpa using h2
      rw [hlen]
      have : sumBars st.bars = a + b + d := by rw [hbars, sumBars_triple]
      rw [this] at hsum
      exact hsum

theorem sysRun_inv (es : List (Nat × String)) (st : Sys) (h : SysInv st)
    (hes : ∀ e ∈ es, e.2 ∈ CHOICES) (st' : Sys)
    (hrun : sysRun st es = Except.ok st') : SysInv st' := by
  induction es generalizing st with
  | nil =>
    rw [sysRun] at hrun
    cases hrun
    exact h
  | cons e rest ih =>
    obtain ⟨st1, hstep, hinv1⟩ := sysStep_inv st h e.1 e.2 (hes e (by simp))
    rw [sysRun, hstep] at hrun
    exact ih st1 hinv1 (fun x hx => hes x (List.mem_cons_of_mem e hx)) hrun

/-- C1: after any sequence of user selections (each source's event carries
as previous exactly its last stored response, `None` the first time), the
sum of all tally counts equals the number of distinct sources that have
produced at least one response. -/
theorem c1_sum_counts_eq_sources (es : List (Nat × String))
    (hes : ∀ e ∈ es, e.2 ∈ CHOICES) (st : Sys)
    (hrun : sysRun initSys es = Except.ok st) :
    sumBars st.bars = (((st.buttons.map Prod.fst).dedup).length : Int) := by
  obtain ⟨hwf, hnd, hvals, hsum⟩ := sysRun_inv es initSys initSys_inv hes st hrun
  rw [List.Nodup.dedup hnd, hsum]
  simp

/-- Witness for C1: two sources picking Option 1 give total 2 over
2 distinct sources. -/
theorem c1_sum_counts_eq_sources_witness :
    sumBars [("Option 1", 2), ("Option 2", 0), ("Option 3", 0)] =
      ((([0, 1] : List Nat).dedup).length : Int) :=
  c1_sum_counts_eq_sources [(0, "Option 1"), (1, "Option 1")] (by decide)
    ⟨[(0, "Option 1"), (1, "Option 1")],
      [("Option 1", 2), ("Option 2", 0), ("Option 3", 0)]⟩ rfl

/-- C7: a freshly constructed ResponseGraph that has received no update
events has a count of zero for every choice in the fixed choice set. -/
theorem c7_fresh_graph_all_zero (c : String) (hc : c ∈ CHOICES) :
    dget ResponseGraph.initBars c = some 0 := by
  simp only [CHOICES, List.mem_cons, List.not_mem_nil, or_false] at hc
  rcases hc with h | h | h <;> subst h <;> rfl

/-- Witness for C7 at the concrete choice "Option 2". -/
theorem c7_fresh_graph_all_zero_witness :
    "Option 2" ∈ CHOICES ∧ dget ResponseGraph.initBars "Option 2" = some 0 :=
  ⟨by decide, c7_fresh_graph_all_zero "Option 2" (by decide)⟩

/-- C2: on any well-formed tally state, an update event carrying a
previous choice `old` and a next choice `nxt` from the fixed set succeeds,
lowers the count under `old` by one and raises the count under `nxt` by
one (so a choice that is neither is unchanged, and `old = nxt` composes to
no net change), and keeps the sum of all counts unchanged. -/
theorem c2_reselect_tally (bars : Bars) (hwf : WFBars bars) (old nxt : String)
    (hold : old ∈ CHOICES) (hnxt : nxt ∈ CHOICES) :
    ∃ bars', ResponseGraph.update bars (some old) nxt = Except.ok bars' ∧
      (∀ ch ∈ CHOICES, dget bars' ch = (dget bars ch).map
        (fun v => v - (if ch = old then 1 else 0) + (if ch = nxt then 1 else 0))) ∧
      sumBars bars' = sumBars bars := by
  obtain ⟨a, b, c, rfl⟩ := hwf
  refine ⟨_, update_wf_spec a b c (some old) nxt (Or.inr ⟨old, hold, rfl⟩) hnxt,
    ?_, ?_⟩
  · intro ch hch
    rw [dget_tallyStep]
    have h1 : ((some old : Option String) = some ch) ↔ (ch = old) := by
      simp [eq_comm]
    have h2 : (nxt = ch) ↔ (ch = nxt) := eq_comm
    simp only [h1, h2]
  · rw [sum_tallyStep_some a b c old nxt hold hnxt, sumBars_triple]

/-- Witness for C2: a concrete re-selection from Option 1 to Option 3 on
the tally Option 1 ↦ 2, Option 2 ↦ 1, Option 3 ↦ 0. -/
theorem c2_reselect_tally_witness :
    ∃ bars',
      ResponseGraph.update [("Option 1", 2), ("Option 2", 1), ("Option 3", 0)]
          (some "Option 1") "Option 3" = Except.ok bars' ∧
      (∀ ch ∈ CHOICES,
        dget bars' ch =
          (dget [("Option 1", 2), ("Option 2", 1), ("Option 3", 0)] ch).map
            (fun v => v - (if ch = "Option 1" then 1 else 0) +
              (if ch = "Option 3" then 1 else 0))) ∧
      sumBars bars' = sumBars [("Option 1", 2), ("Option 2", 1), ("Option 3", 0)] :=
  c2_reselect_tally _ ⟨2, 1, 0, rfl⟩ "Option 1" "Option 3" (by decide) (by decide)

/-- C5: from the all-zero tally, the events (None, Option 1) from source1,
(None, Option 2) from source2, then (Option 1, Option 3) from source1
yield the final tally Option 1 ↦ 0, Option 2 ↦ 1, Option 3 ↦ 1. -/
theorem c5_scenario :
    runEvents ResponseGraph.initBars
      [(none, "Option 1"), (none, "Option 2"), (some "Option 1", "Option 3")] =
    Except.ok [("Option 1", 0), ("Option 2", 1), ("Option 3", 1)] := by
  rfl

/-- C6: on a non-empty choice list the prompt always returns a value, and
a dismissal without any selection returns the first choice. -/
theorem c6_prompt_total_default (choices : List String) (sel : Option String)
    (h : choices ≠ []) :
    (open_choice_menu choices sel).isSome = true ∧
      (sel = none → open_choice_menu choices sel = some choices.headI) := by
  match choices with
  | [] => exact absurd rfl h
  | first :: rest => cases sel <;> simp [open_choice_menu, List.headI]

/-- Witness for C6: dismissing the prompt over the app's choices yields
Option 1. -/
theorem c6_prompt_total_default_witness :
    (open_choice_menu CHOICES none).isSome = true ∧
      (none = (none : Option String) →
        open_choice_menu CHOICES none = some "Option 1") :=
  c6_prompt_total_default CHOICES none (by decide)

/-- C8: the tally view is deterministic and a pure function of the count
map: a run of one event sequence from the fresh aggregator has a unique
outcome, and two bars dicts equal under every key lookup draw equal bar
heights, so no state beyond the count map affects the view. -/
theorem c8_view_deterministic_pure :
    (∀ (es : List (Option String × String)) (r1 r2 : Except (String × Bars) Bars),
        runEvents ResponseGraph.initBars es = r1 →
        runEvents ResponseGraph.initBars es = r2 → r1 = r2) ∧
    (∀ b1 b2 : Bars, (∀ ch, dget b1 ch = dget b2 ch) →
        ResponseGraph.drawHeights b1 = ResponseGraph.drawHeights b2) := by
  constructor
  · intro es r1 r2 h1 h2
    rw [← h1, h2]
  · intro b1 b2 h
    simp only [ResponseGraph.drawHeights]
    congr 1
    funext c
    exact h c

/-- Witness for C8: a concrete run outcome is unique, and a bars dict
with a shadowed duplicate entry draws the same heights as the plain one. -/
theorem c8_view_deterministic_pure_witness :
    ((Except.ok [("Option 1", 1), ("Option 2", 0), ("Option 3", 0)] :
        Except (String × Bars) Bars) =
      Except.ok [("Option 1", 1), ("Option 2", 0), ("Option 3", 0)]) ∧
    ResponseGraph.drawHeights [("Option 1", 0), ("Option 2", 0), ("Option 3", 0)] =
      ResponseGraph.drawHeights
        [("Option 1", 0), ("Option 2", 0), ("Option 3", 0), ("Option 1", 7)] :=
  ⟨c8_view_deterministic_pure.1 [(none, "Option 1")] _ _ rfl rfl,
   c8_view_deterministic_pure.2 _ _ (by
     intro ch
     by_cases h1 : ("Option 1" : String) = ch
     · simp [dget, h1]
     · by_cases h2 : ("Option 2" : String) = ch
       · simp [dget, h1, h2]
       · by_cases h3 : ("Option 3" : String) = ch
         · simp [dget, h1, h2, h3]
         · simp [dget, h1, h2, h3])⟩

theorem RB_class_stays_zero (n : Nat) : (RB_construct_seq n).2 = 0 := by
  induction n with
  | zero => rfl
  | succ n ih => simp [RB_construct_seq, RB_init_ids, ih]

/-- C9: in any sequence of ResponseButton constructions every button gets
but_id 0, and the class-level counter is never advanced. -/
theorem c9_all_ids_zero (n : Nat) (b : RBIds)
    (hb : b ∈ (RB_construct_seq n).1) :
    b.but_id = 0 ∧ (RB_construct_seq n).2 = 0 := by
  refine ⟨?_, RB_class_stays_zero n⟩
  induction n with
  | zero => simp [RB_construct_seq] at hb
  | succ n ih =>
    rw [RB_construct_seq] at hb
    rcases List.mem_append.mp hb with hb | hb
    · exact ih hb
    · simp only [List.mem_singleton] at hb
      rw [hb, RB_class_stays_zero n]
      rfl

/-- Witness for C9: the third button of a five-button run has id 0. -/
theorem c9_all_ids_zero_witness :
    (⟨0, some 1⟩ : RBIds) ∈ (RB_construct_seq 5).1 ∧
      (⟨0, some 1⟩ : RBIds).but_id = 0 ∧ (RB_construct_seq 5).2 = 0 :=
  ⟨by decide, c9_all_ids_zero 5 ⟨0, some 1⟩ (by decide)⟩

/-- C3 as stated is false: re-selecting the very same choice leaves the
stored response unchanged, yet a notification is still delivered. Here
the button already holds Option 1, the user picks Option 1 again, the
state is unchanged and one (previous, new) = (Option 1, Option 1)
notification goes out. -/
theorem c3_counterexample_notify_without_change :
    ResponseButton.update_response ⟨some "Option 1", some "#baffc9"⟩ 1
        "Option 1" =
      Except.ok (⟨some "Option 1", some "#baffc9"⟩,
        [(0, some "Option 1", "Option 1")]) := by
  rfl

/-- C3 amended: on every update_response call whose input is in the fixed
choice set — whether or not it differs from the stored choice — the
source stores the input and synchronously notifies every registered
subscriber exactly once, in order, with (previous stored value, newly
stored value), the previous value being None on a first selection. -/
theorem c3_notify_every_update (st : ButtonState) (nsubs : Nat)
    (input : String) (hin : input ∈ CHOICES) :
    ∃ color, dget CHOICE_COLOR input = some color ∧
      ResponseButton.update_response st nsubs input =
        Except.ok (⟨some input, some color⟩,
          (List.range nsubs).map (fun i => (i, st.resp, input))) ∧
      ∀ i < nsubs,
        (((List.range nsubs).map (fun i => (i, st.resp, input))).map
          Prod.fst).count i = 1 := by
  obtain ⟨color, hcolor⟩ : ∃ color, dget CHOICE_COLOR input = some color := by
    rcases mem_CHOICES_elim input hin with rfl | rfl | rfl <;> exact ⟨_, rfl⟩
  refine ⟨color, hcolor, ?_, ?_⟩
  · simp [ResponseButton.update_response, hcolor]
  · intro i hi
    have hmap : ((List.range nsubs).map
        (fun j : Nat => ((j, st.resp, input) : Nat × Option String × String))).map
          Prod.fst = List.range nsubs := by
      have hcomp : (Prod.fst ∘ fun j : Nat =>
          ((j, st.resp, input) : Nat × Option String × String)) = id := rfl
      rw [List.map_map, hcomp, List.map_id]
    rw [hmap]
    exact List.count_eq_one_of_mem (List.nodup_range nsubs)
      (List.mem_range.mpr hi)

/-- Witness for C3: a first selection of Option 2 with two subscribers. -/
theorem c3_notify_every_update_witness :
    ∃ color, dget CHOICE_COLOR "Option 2" = some color ∧
      ResponseButton.update_response ⟨none, none⟩ 2 "Option 2" =
        Except.ok (⟨some "Option 2", some color⟩,
          (List.range 2).map
            (fun i => (i, (none : Option String), "Option 2"))) ∧
      ∀ i < 2,
        (((List.range 2).map
            (fun i => (i, (none : Option String), "Option 2"))).map
          Prod.fst).count i = 1 :=
  c3_notify_every_update ⟨none, none⟩ 2 "Option 2" (by decide)

/-- C4: in every update_response call, each subscriber notification comes
strictly after the write of the new value into the stored response field,
and strictly before the call returns to its caller. -/
theorem c4_notify_after_store_before_return (st : ButtonState) (nsubs : Nat)
    (input : String) (j : Nat) (i : Nat) (o : Option String) (v : String)
    (hj : (update_response_trace st nsubs input).get? j =
      some (Act.notify i o v)) :
    (∃ k, k < j ∧ (update_response_trace st nsubs input).get? k =
      some (Act.setResp input)) ∧
    (∀ m, (update_response_trace st nsubs input).get? m = some Act.ret →
      j < m) := by
  rcases hcol : dget CHOICE_COLOR input with _ | color
  · exfalso
    simp only [update_response_trace, hcol, List.append_nil] at hj
    rcases j with _ | _ | j
    · simp at hj
    · simp at hj
    · simp at hj
  · simp only [update_response_trace, hcol, List.cons_append,
      List.nil_append] at hj ⊢
    set M := (List.range nsubs).map (fun i => Act.notify i st.resp input)
      with hM
    have hlenM : M.length = nsubs := by simp [hM]
    rcases j with _ | _ | _ | j
    · simp at hj
    · simp at hj
    · simp at hj
    · simp only [List.get?_cons_succ] at hj
      have hjlt : j < nsubs := by
        by_contra hge
        push_neg at hge
        rw [List.get?_append_right (hlenM ▸ hge)] at hj
        rcases hd : j - M.length with _ | t <;> rw [hd] at hj <;> simp at hj
      refine ⟨⟨1, by omega, rfl⟩, ?_⟩
      intro m hm
      rcases m with _ | _ | _ | m
      · simp at hm
      · simp at hm
      · simp at hm
      · simp only [List.get?_cons_succ] at hm
        have hmge : nsubs ≤ m := by
          by_contra hlt
          push_neg at hlt
          rw [List.get?_append (hlenM ▸ hlt)] at hm
          rw [hM, List.get?_map, List.get?_range hlt] at hm
          simp at hm
        omega

/-- Witness for C4: the single notification of a one-subscriber call sits
after the response write and before the return. -/
theorem c4_notify_after_store_before_return_witness :
    (∃ k, k < 3 ∧
      (update_response_trace ⟨none, none⟩ 1 "Option 1").get? k =
        some (Act.setResp "Option 1")) ∧
    (∀ m, (update_response_trace ⟨none, none⟩ 1 "Option 1").get? m =
        some Act.ret → 3 < m) :=
  c4_notify_after_store_before_return ⟨none, none⟩ 1 "Option 1" 3 0 none
    "Option 1" rfl

/-- C10: an update whose next choice is outside the fixed set raises a
KeyError, and when the previous choice is a valid one, its count was
already decremented when the error is raised — the tally state is changed
on error, so the operation is not atomic. -/
theorem c10_keyerror_after_decrement (bars : Bars) (hwf : WFBars bars)
    (old nxt : String) (hold : old ∈ CHOICES) (hnxt : nxt ∉ CHOICES) :
    ∃ v, dget bars old = some v ∧
      ResponseGraph.update bars (some old) nxt =
        Except.error (nxt, dset bars old (v + -1)) ∧
      dget (dset bars old (v + -1)) old = some (v - 1) ∧ v - 1 ≠ v := by
  obtain ⟨a, b, c, rfl⟩ := hwf
  simp only [CHOICES, List.mem_cons, List.not_mem_nil, or_false, not_or]
    at hnxt
  obtain ⟨h1, h2, h3⟩ := hnxt
  rcases mem_CHOICES_elim old hold with rfl | rfl | rfl
  · exact ⟨a, rfl,
      by simp [ResponseGraph.update, dadd, dget, dset,
        Ne.symm h1, Ne.symm h2, Ne.symm h3],
      by simp [dget, dset, sub_eq_add_neg],
      by omega⟩
  · exact ⟨b, rfl,
      by simp [ResponseGraph.update, dadd, dget, dset,
        Ne.symm h1, Ne.symm h2, Ne.symm h3],
      by simp [dget, dset, sub_eq_add_neg],
      by omega⟩
  · exact ⟨c, rfl,
      by simp [ResponseGraph.update, dadd, dget, dset,
        Ne.symm h1, Ne.symm h2, Ne.symm h3],
      by simp [dget, dset, sub_eq_add_neg],
      by omega⟩

/-- Witness for C10: on the fresh tally, a previous of Option 1 with the
out-of-set next choice Lunch raises KeyError Lunch with Option 1 already
at count -1. -/
theorem c10_keyerror_after_decrement_witness :
    ∃ v, dget ResponseGraph.initBars "Option 1" = some v ∧
      ResponseGraph.update ResponseGraph.initBars (some "Option 1") "Lunch" =
        Except.error ("Lunch", dset ResponseGraph.initBars "Option 1" (v + -1)) ∧
      dget (dset ResponseGraph.initBars "Option 1" (v + -1)) "Option 1" =
        some (v - 1) ∧ v - 1 ≠ v :=
  c10_keyerror_after_decrement ResponseGraph.initBars ⟨0, 0, 0, rfl⟩
    "Option 1" "Lunch" (by decide) (by decide)
